import Mathlib

/-!
Verification of the lukascript runtime (src/src) against its specification.

The development shallowly embeds the core of the interpreter: the variable
and coercion model (src/src/variables.rs), the operator-expression evaluator
(src/src/operators.rs), the standard-library dispatch (src/src/stdlib.rs) and
the execution engine (src/src/engine.rs).  Fatal errors and panics, which in
the source abort the whole process, are embedded as the error branch of
Except String.  The process standard output and standard input streams, which
the standard library touches, are carried explicitly inside the machine
state.  Machine integers (isize) are modelled as unbounded Int: no claim
involves values anywhere near the overflow boundary.
-/

set_option maxHeartbeats 1000000

namespace Lukascript

/-- Tagged value kinds of the language (src/src/variables.rs, enum VariableType). -/
inductive VariableType
  | Integer (value : Int)
  | Boolean (value : Bool)
  | Str (value : String)
  deriving DecidableEq, Repr

/-- A variable wraps its tagged value (src/src/variables.rs, struct Variable). -/
structure Variable where
  variable_type : VariableType
  deriving DecidableEq, Repr

/-- Rust char::is_numeric as used on the ASCII text of this language, where it
coincides with being a decimal digit. -/
def char_is_numeric (c : Char) : Bool := c.isDigit

/-- The is_numeric helper duplicated in variables.rs and engine.rs: every
character of the string is numeric (vacuously true for the empty string). -/
def is_numeric (value : String) : Bool := value.toList.all char_is_numeric

/-- Decimal digits to a natural number, most significant first. -/
def digits_to_nat (ds : List Char) : Nat :=
  ds.foldl (fun n c => 10 * n + (c.toNat - 48)) 0

/-- Rust str::parse for isize: an optional sign followed by at least one
digit; none models a parse failure. -/
def parse_int (value : String) : Option Int :=
  match value.toList with
  | [] => none
  | '+' :: ds =>
    if ds ≠ [] ∧ ds.all Char.isDigit then some (digits_to_nat ds) else none
  | '-' :: ds =>
    if ds ≠ [] ∧ ds.all Char.isDigit then some (-(digits_to_nat ds : Int)) else none
  | ds =>
    if ds.all Char.isDigit then some (digits_to_nat ds) else none

/-- string_to_int (src/src/variables.rs): parse and unwrap; the unwrap panic
becomes an error result. -/
def string_to_int (value : String) : Except String Int :=
  match parse_int value with
  | some n => .ok n
  | none => .error "panic: invalid digit found in string"

/-- bool_to_int (src/src/variables.rs). -/
def bool_to_int (value : Bool) : Int := if value = false then 0 else 1

/-- int_to_bool (src/src/variables.rs). -/
def int_to_bool (value : Int) : Bool := if value = 0 then false else true

/-- int_to_string (src/src/variables.rs): decimal text of the integer. -/
def int_to_string (value : Int) : String := toString value

namespace Variable

/-- Variable::as_integer: the canonical integer bridge; parsing a
non-numeric string panics. -/
def as_integer (v : Variable) : Except String Int :=
  match v.variable_type with
  | .Integer value => .ok value
  | .Boolean value => .ok (bool_to_int value)
  | .Str value => string_to_int value

/-- Variable::is_string. -/
def is_string (v : Variable) : Bool :=
  match v.variable_type with
  | .Str _ => true
  | _ => false

/-- Variable::is_string_and_so_is. -/
def is_string_and_so_is (v other : Variable) : Bool :=
  v.is_string && other.is_string

/-- Variable::detect_conflicting_string_types, kept with the exact branch
structure of the source, including the branch on a string self and a
non-string other whose two arms both yield false. -/
def detect_conflicting_string_types (v other : Variable) : Except String Unit :=
  let is_error :=
    match v.variable_type with
    | .Str a =>
      match other.variable_type with
      | .Str b => if is_numeric a && is_numeric b then false else true
      | _ => if is_numeric a then false else false
    | _ =>
      match other.variable_type with
      | .Str b => if is_numeric b then false else true
      | _ => false
  if is_error then .error "attempt to cast non-numeric string with other type"
  else .ok ()

/-- Variable::set_from_integer: convert the integer back into the own kind of
the variable, in place. -/
def set_from_integer (v : Variable) (value : Int) : Variable :=
  match v.variable_type with
  | .Integer _ => ⟨.Integer value⟩
  | .Boolean _ => ⟨.Boolean (int_to_bool value)⟩
  | .Str _ => ⟨.Str (int_to_string value)⟩

/-- Variable::set: verbatim copy when both sides are strings, otherwise the
conflict check followed by the integer bridge. -/
def set (v other : Variable) : Except String Variable :=
  if v.is_string_and_so_is other then .ok ⟨other.variable_type⟩
  else do
    v.detect_conflicting_string_types other
    let n ← other.as_integer
    .ok (v.set_from_integer n)

/-- Variable::printed_string. -/
def printed_string (v : Variable) : String :=
  match v.variable_type with
  | .Integer value => toString value
  | .Boolean value => if value then "true" else "false"
  | .Str value => value

/-- impl Add for Variable: clone self and set it from the integer sum. -/
def add (v other : Variable) : Except String Variable := do
  let a ← v.as_integer
  let b ← other.as_integer
  .ok (v.set_from_integer (a + b))

/-- impl MulAssign for Variable. -/
def mul_assign (v other : Variable) : Except String Variable := do
  let a ← v.as_integer
  let b ← other.as_integer
  .ok (v.set_from_integer (a * b))

/-- Modelled from the spec: the SubAssign implementation for Variable used by
evaluate_operator_expression is not among the given sources; section 4.2 of
the spec says subtraction is arithmetic on integer-coerced operands, exactly
like the AddAssign and MulAssign implementations that are present. -/
def sub_assign (v other : Variable) : Except String Variable := do
  let a ← v.as_integer
  let b ← other.as_integer
  .ok (v.set_from_integer (a - b))

/-- impl PartialEq for Variable: compare the canonical integers. -/
def eqv (v other : Variable) : Except String Bool := do
  let a ← v.as_integer
  let b ← other.as_integer
  .ok (a == b)

/-- The strict less-than derived from impl PartialOrd for Variable. -/
def ltv (v other : Variable) : Except String Bool := do
  let a ← v.as_integer
  let b ← other.as_integer
  .ok (decide (a < b))

/-- The strict greater-than derived from impl PartialOrd for Variable. -/
def gtv (v other : Variable) : Except String Bool := do
  let a ← v.as_integer
  let b ← other.as_integer
  .ok (decide (a > b))

/-- The greater-or-equal derived from impl PartialOrd for Variable. -/
def gev (v other : Variable) : Except String Bool := do
  let a ← v.as_integer
  let b ← other.as_integer
  .ok (decide (a ≥ b))

end Variable

/-- Token kinds (src/src/lexer.rs, enum TokenType). -/
inductive TokenType
  | Value | Equals | For | From | To | Done | Function | Colon | DoublePipe
  | RightArrow | Return | Int | Bool | Str | Array | If | Is | Not
  | Multiply | Minus | LessThan | GreaterThan | LeftBracket | RightBracket
  deriving DecidableEq, Repr

/-- src/src/operators.rs, enum OperatorExpression. -/
inductive OperatorExpression
  | Variable (v : Variable)
  | Operator (t : TokenType)
  deriving DecidableEq, Repr

/-- operator_char_to_token_type (src/src/operators.rs), the character match
written as an equivalent chain of equality tests. -/
def operator_char_to_token_type (c : Char) : TokenType :=
  if c = '*' then .Multiply
  else if c = '-' then .Minus
  else if c = '<' then .LessThan
  else if c = '>' then .GreaterThan
  else .Value

/-- is_token_operator (src/src/operators.rs). -/
def is_token_operator (t : TokenType) : Bool :=
  match t with
  | .Multiply => true
  | .Minus => true
  | .LessThan => true
  | .GreaterThan => true
  | _ => false

/-- is_char_operator (src/src/operators.rs). -/
def is_char_operator (c : Char) : Bool :=
  is_token_operator (operator_char_to_token_type c)

/-- value_contains_operator (src/src/operators.rs). -/
def value_contains_operator (value : String) : Bool :=
  value.toList.any is_char_operator

/-- One reduction step of the fold in evaluate_operator_expression: apply the
recorded operator between the accumulator and the next operand.  The todo
branch of the source for an unsupported operator becomes a panic error. -/
def evaluate_operator_step (initial : Variable) (last_operator : TokenType)
    (operand : Variable) : Except String Variable :=
  match last_operator with
  | .Multiply => initial.mul_assign operand
  | .Minus => initial.sub_assign operand
  | .LessThan => do
    let b ← initial.ltv operand
    .ok ⟨.Boolean b⟩
  | .GreaterThan => do
    let b ← initial.gtv operand
    .ok ⟨.Boolean b⟩
  | _ => .error "panic: todo"

/-- The loop of evaluate_operator_expression, carrying the accumulator, the
last_was_variable flag and the last recorded operator. -/
def evaluate_operator_go (initial : Variable) (last_was_variable : Bool)
    (last_operator : TokenType) :
    List OperatorExpression → Except String Variable
  | [] => .ok initial
  | .Operator t :: rest =>
    if !last_was_variable then .error "panic: operator follows operator"
    else evaluate_operator_go initial false t rest
  | .Variable w :: rest =>
    if last_was_variable then .error "panic: variable follows variable"
    else do
      let acc ← evaluate_operator_step initial last_operator w
      evaluate_operator_go acc true last_operator rest

/-- evaluate_operator_expression (src/src/operators.rs): the first element
must be a variable, which seeds the accumulator; the initial recorded
operator is Multiply and the initial flag is true, as in the source. -/
def evaluate_operator_expression : List OperatorExpression → Except String Variable
  | .Variable v :: rest => evaluate_operator_go v true .Multiply rest
  | _ => .error "panic: expression must start with a variable"

/-- Instruction variants (src/src/parser.rs, enum Instruction).  The Rust
field named end of FromValueToValue is called endv here because end is a
Lean keyword. -/
inductive Instruction
  | NoOp
  | FromValueToValue (value start endv : String)
  | IfValue (left_value : String) (last_line : Nat)
  | IfValueIsValue (left_value right_value : String) (last_line : Nat)
  | IfValueIsNotValue (left_value right_value : String) (last_line : Nat)
  | Done
  | FunctionDeclaration (name : String) (first_line last_line : Nat)
      (arguments : List (String × VariableType))
  | Return (value : String)
  | IntDeclaration (name value : String)
  | BoolDeclaration (name value : String)
  | StringDeclaration (name value : String)
  | ArrayDeclaration (name : String)
  | Assignment (name value : String)
  | FunctionCall (function : String) (values : List String)
      (target_variable : Option String)
  deriving DecidableEq, Repr

/-- FunctionInfo (src/src/engine.rs): beginning line and argument list. -/
abbrev FunctionInfo : Type := Nat × List (String × VariableType)

/-- Frame kinds (src/src/engine.rs, enum Frame).  The loop-variable field is
called loop_var here because its Rust name variable is a Lean keyword. -/
inductive Frame
  | Root
  | ForLoop (loop_var : String) (start_line : Nat) (end_value : String)
  | Function (caller_line : Nat) (target_variable : Option String)
  | IfStatement
  deriving DecidableEq

/-- Association lists with unique keys model the HashMaps of FrameContext;
lookup finds the binding of a key if any. -/
def lookupA {α : Type} : List (String × α) → String → Option α
  | [], _ => none
  | (k2, v) :: rest, k => if k2 = k then some v else lookupA rest k

/-- HashMap::contains_key on the association-list model. -/
def containsA {α : Type} (m : List (String × α)) (k : String) : Bool :=
  (lookupA m k).isSome

/-- HashMap::insert on the association-list model: replace the binding in
place when the key is present, append it otherwise. -/
def insertA {α : Type} : List (String × α) → String → α → List (String × α)
  | [], k, v => [(k, v)]
  | (k2, w) :: rest, k, v =>
    if k2 = k then (k2, v) :: rest else (k2, w) :: insertA rest k v

/-- FrameContext (src/src/engine.rs): a frame plus its own variable and
function maps. -/
structure FrameContext where
  frame : Frame
  vars : List (String × Variable)
  functions : List (String × FunctionInfo)
  deriving DecidableEq

/-- FrameContext::clear: empty both maps, keep the frame tag. -/
def FrameContext.clear (fc : FrameContext) : FrameContext :=
  { fc with vars := [], functions := [] }

/-- The engine state (src/src/engine.rs, struct State): program counter and
frame stack, with the innermost frame last, exactly as in the Vec of the
source.  The stdout and stdin fields embed the process streams used by the
standard library. -/
structure State where
  line : Nat
  frames : List FrameContext
  stdout : String
  stdin : List String
  deriving DecidableEq

/-- State::error: a fatal error message carrying the 1-based current line,
as formatted by the source. -/
def State.fatal (st : State) (message : String) : Except String State :=
  .error (message ++ " - line " ++ toString (st.line + 1))

/-- State::add_frame: push a fresh FrameContext as the new innermost frame. -/
def State.add_frame (st : State) (frame : Frame) : State :=
  { st with frames := st.frames ++ [⟨frame, [], []⟩] }

/-- Replace the innermost frame context (the mutation through
State::innermost_frame in the source). -/
def set_innermost (frames : List FrameContext) (fc : FrameContext) :
    List FrameContext :=
  frames.dropLast ++ [fc]

/-- The scope-chain variable search of State::get_variable: the innermost
frame is the last list entry and wins, searching outwards from it. -/
def lookup_variable : List FrameContext → String → Option Variable
  | [], _ => none
  | fc :: rest, name =>
    match lookup_variable rest name with
    | some v => some v
    | none => lookupA fc.vars name

/-- Write through the scope chain: replace the binding in the innermost frame
that has one, which is the frame whose variable State::get_variable returns
a mutable reference to. -/
def update_variable : List FrameContext → String → Variable → List FrameContext
  | [], _, _ => []
  | fc :: rest, name, v =>
    if (lookup_variable rest name).isSome then fc :: update_variable rest name v
    else if containsA fc.vars name then
      { fc with vars := insertA fc.vars name v } :: rest
    else fc :: rest

/-- State::get_variable as a read: the innermost binding of the name, or the
fatal does-not-exist error. -/
def State.get_variable (st : State) (name : String) : Except String Variable :=
  match lookup_variable st.frames name with
  | some v => .ok v
  | none =>
    .error ("variable \"" ++ name ++ "\" does not exist - line " ++ toString (st.line + 1))

/-- The in-place mutation pattern self.get_variable(name) followed by a
method updating the found variable: apply f to the innermost binding and
write the result back to the same frame. -/
def State.modify_variable (st : State) (name : String)
    (f : Variable → Except String Variable) : Except String State :=
  match lookup_variable st.frames name with
  | none => .error ("variable \"" ++ name ++ "\" does not exist - line " ++ toString (st.line + 1))
  | some v => do
    let v2 ← f v
    .ok { st with frames := update_variable st.frames name v2 }

/-- self.get_variable(name).set(value) for an already evaluated value. -/
def State.assign_variable (st : State) (name : String) (value : Variable) :
    Except String State :=
  st.modify_variable name (fun v => v.set value)

/-- The innermost-to-outermost function search of the FunctionCall arm. -/
def lookup_function : List FrameContext → String → Option FunctionInfo
  | [], _ => none
  | fc :: rest, name =>
    match lookup_function rest name with
    | some info => some info
    | none => lookupA fc.functions name

/-- The innermost-to-outermost Function-frame search of the Return arm,
yielding the Vec index of the frame together with its caller line and
target variable. -/
def find_function_frame : List FrameContext → Option (Nat × Nat × Option String)
  | [] => none
  | fc :: rest =>
    match find_function_frame rest with
    | some (i, cl, tv) => some (i + 1, cl, tv)
    | none =>
      match fc.frame with
      | .Function caller_line target_variable => some (0, caller_line, target_variable)
      | _ => none

/-- Modelled from the spec: is_str_valid_type, referenced from
State::make_variable_of_type, is not among the given sources of
variables.rs; section 4.1 of the spec rejects a name that collides with a
reserved type keyword string, and the type keywords of the lexer are int,
bool and string. -/
def is_str_valid_type (s : String) : Bool :=
  s = "int" || s = "bool" || s = "string"

/-- State::make_variable_of_type: validity checks, then creation in the
innermost frame, fatal when the name is already bound there. -/
def State.make_variable_of_type (st : State) (name : String)
    (variable_type : VariableType) : Except String State :=
  if is_numeric name || value_contains_operator name || is_str_valid_type name then
    st.fatal "invalid variable name"
  else
    match st.frames.getLast? with
    | none => .error "panic: no frames"
    | some fc =>
      if containsA fc.vars name then st.fatal "variable already exists"
      else
        .ok { st with
              frames := set_innermost st.frames
                { fc with vars := insertA fc.vars name ⟨variable_type⟩ } }

/-- State::evaluate_inner_value: numeric literal, quoted string, or variable
lookup. -/
def State.evaluate_inner_value (st : State) (value : String) :
    Except String Variable :=
  if is_numeric value then
    match parse_int value with
    | some n => .ok ⟨.Integer n⟩
    | none => .error "panic: invalid digit found in string"
  else if value.length ≥ 2 ∧ value.toList.head? = some '\"' ∧
      value.toList.getLast? = some '\"' then
    .ok ⟨.Str ⟨(value.toList.drop 1).dropLast⟩⟩
  else
    st.get_variable value

/-- The character march of State::evaluate_value: grow a word until an
operator character or the end of the string flushes it.  A flush at an
operator character that is not the final character drops that character from
the word and records the operator; at the final character the word keeps the
character, and the operator is still recorded if it is one. -/
def split_go (word : List Char) : List Char → List (List Char ⊕ Char)
  | [] => []
  | [c] =>
    if is_char_operator c then [.inl (word ++ [c]), .inr c]
    else [.inl (word ++ [c])]
  | c :: rest =>
    if is_char_operator c then .inl word :: .inr c :: split_go [] rest
    else split_go (word ++ [c]) rest

/-- The full split of a textual value into operands and operator characters. -/
def split_expression (value : String) : List (List Char ⊕ Char) :=
  split_go [] value.toList

/-- One flushed part of the march becomes one element of the expression: an
operand is recursively evaluated as an inner value, an operator character is
mapped to its token. -/
def split_part_eval (st : State) : List Char ⊕ Char → Except String OperatorExpression
  | .inl w => do
    let v ← st.evaluate_inner_value ⟨w⟩
    .ok (.Variable v)
  | .inr c => .ok (.Operator (operator_char_to_token_type c))

/-- State::evaluate_value: direct inner evaluation when no operator character
occurs, otherwise the march followed by the left-to-right fold. -/
def State.evaluate_value (st : State) (value : String) : Except String Variable :=
  if !value_contains_operator value then st.evaluate_inner_value value
  else do
    let expression ← (split_expression value).mapM (split_part_eval st)
    evaluate_operator_expression expression

/-- State::set_variable: evaluate the right-hand side, then set the found
variable to it. -/
def State.set_variable (st : State) (name value : String) : Except String State := do
  let evaluated ← st.evaluate_value value
  st.assign_variable name evaluated

/-- stdlib_function (src/src/stdlib.rs): print concatenates the printed text
of every argument and a newline to stdout; input prints the arguments
without a newline, consumes one line of stdin and returns it as a string;
any other name is not handled. -/
def stdlib_function (function : String) (arguments : List Variable)
    (stdout : String) (stdin : List String) :
    Except String (Bool × Option Variable × String × List String) :=
  if function = "print" then
    .ok (true, none,
         stdout ++ String.join (arguments.map Variable.printed_string) ++ "\n",
         stdin)
  else if function = "input" then
    match stdin with
    | [] => .error "panic: no line available on stdin"
    | line :: rest =>
      .ok (true, some ⟨.Str line⟩,
           stdout ++ String.join (arguments.map Variable.printed_string),
           rest)
  else .ok (false, none, stdout, stdin)

/-- The helper variable one of State::execute. -/
def one : Variable := ⟨.Integer 1⟩

/-- The argument-passing loop of the user-function FunctionCall arm: for each
parameter, evaluate the call-site argument expression first, then create the
parameter binding in the new innermost frame with its declared kind, then
set it to the evaluated value.  Running out of call-site values would be the
Vec index panic of the source. -/
def pass_arguments (st : State) :
    List (String × VariableType) → List String → Except String State
  | [], _ => .ok st
  | _ :: _, [] => .error "panic: index out of bounds"
  | (name, variable_type) :: args, value :: values => do
    let value_evaluated_early ← st.evaluate_value value
    let st ← st.make_variable_of_type name variable_type
    let st ← st.assign_variable name value_evaluated_early
    pass_arguments st args values

/-- The per-instruction semantics of State::execute, without the fetch and
the final unconditional increment of the program counter.  The match arms
follow the source arm by arm; the parser variants IfValue and
ArrayDeclaration have no arm in the match of the source engine and are
embedded as a panic. -/
def exec_instruction (st : State) : Instruction → Except String State
  | .NoOp => .ok st
  | .FromValueToValue value start endv => do
    let start_value ← st.evaluate_value start
    let end_value ← st.evaluate_value endv
    let lt ← start_value.ltv end_value
    if lt then
      if is_numeric value then st.fatal "invalid variable name"
      else do
        let st := st.add_frame (.ForLoop value st.line endv)
        let st ← st.make_variable_of_type value (.Integer 0)
        st.set_variable value start
    else .ok st
  | .IfValue _ _ => .error "panic: instruction not handled by the engine"
  | .IfValueIsValue left_value right_value last_line => do
    let l ← st.evaluate_value left_value
    let r ← st.evaluate_value right_value
    let e ← l.eqv r
    if e then .ok (st.add_frame .IfStatement)
    else .ok { st with line := last_line }
  | .IfValueIsNotValue left_value right_value last_line => do
    let l ← st.evaluate_value left_value
    let r ← st.evaluate_value right_value
    let e ← l.eqv r
    if !e then .ok (st.add_frame .IfStatement)
    else .ok { st with line := last_line }
  | .FunctionDeclaration name first_line last_line arguments =>
    match st.frames.getLast? with
    | none => .error "panic: no frames"
    | some fc =>
      if containsA fc.functions name then st.fatal "function already declared"
      else
        .ok { st with
              frames := set_innermost st.frames
                { fc with functions := insertA fc.functions name (first_line, arguments) },
              line := last_line }
  | .FunctionCall function values target_variable =>
    match lookup_function st.frames function with
    | some (first_line, desired_args) => do
      let st := st.add_frame (.Function st.line target_variable)
      if desired_args.length ≠ values.length then
        st.fatal "invalid number of function arguments"
      else do
        let st ← pass_arguments st desired_args values
        .ok { st with line := first_line }
    | none => do
      let arguments ← values.mapM st.evaluate_value
      let result ← stdlib_function function arguments st.stdout st.stdin
      let st := { st with stdout := result.2.2.1, stdin := result.2.2.2 }
      if result.1 then
        match target_variable, result.2.1 with
        | some target, some returned => do
          let st ← st.make_variable_of_type target returned.variable_type
          st.assign_variable target returned
        | _, _ => .ok st
      else st.fatal "unknown function"
  | .Return value =>
    match find_function_frame st.frames with
    | some (index, caller_line, target_variable) =>
      match target_variable with
      | some target => do
        let evaluated ← st.evaluate_value value
        let st := { st with frames := st.frames.take index }
        let st ← st.make_variable_of_type target evaluated.variable_type
        let st ← st.assign_variable target evaluated
        .ok { st with line := caller_line }
      | none =>
        .ok { st with frames := st.frames.take index, line := caller_line }
    | none => st.fatal "cannot return outside of a function"
  | .Done =>
    match st.frames.getLast? with
    | none => st.fatal "no appropriate frame"
    | some fc =>
      match fc.frame with
      | .ForLoop loop_var start_line end_value => do
        let current ← st.get_variable loop_var
        let sum ← current.add one
        let evaluated_end ← st.evaluate_value end_value
        let ge ← sum.gev evaluated_end
        if ge then .ok { st with frames := st.frames.dropLast }
        else do
          let st ← st.modify_variable loop_var (fun v => v.add one)
          let variable_backup ← st.get_variable loop_var
          match st.frames.getLast? with
          | none => .error "panic: no frames"
          | some fc2 =>
            .ok { st with
                  frames := set_innermost st.frames
                    { fc2.clear with vars := insertA [] loop_var variable_backup },
                  line := start_line }
      | .Function caller_line target_variable =>
        let st := { st with frames := st.frames.dropLast }
        if target_variable.isSome then st.fatal "function did not return valid value"
        else .ok { st with line := caller_line }
      | .IfStatement => .ok { st with frames := st.frames.dropLast }
      | .Root => st.fatal "attempt to terminate root frame"
  | .IntDeclaration name value => do
    let evaluated ← st.evaluate_value value
    let st ← st.make_variable_of_type name (.Integer 0)
    st.assign_variable name evaluated
  | .BoolDeclaration name value => do
    let evaluated ← st.evaluate_value value
    let st ← st.make_variable_of_type name (.Boolean false)
    st.assign_variable name evaluated
  | .StringDeclaration name value => do
    let evaluated ← st.evaluate_value value
    let st ← st.make_variable_of_type name (.Str "")
    st.assign_variable name evaluated
  | .ArrayDeclaration _ => .error "panic: instruction not handled by the engine"
  | .Assignment name value => st.set_variable name value

/-- One turn of the fetch-execute loop: fetch the instruction at the counter
(out of bounds would be a Vec index panic), execute it, then advance the
counter by one, unconditionally, as at the end of the loop body of the
source. -/
def execStep (instructions : List Instruction) (st : State) :
    Except String State :=
  match instructions[st.line]? with
  | none => .error "panic: index out of bounds"
  | some instr => do
    let st ← exec_instruction st instr
    .ok { st with line := st.line + 1 }

/-- Exactly n turns of the fetch-execute loop. -/
def execSteps (instructions : List Instruction) : Nat → State → Except String State
  | 0, st => .ok st
  | n + 1, st => do
    execSteps instructions n (← execStep instructions st)

/-- The while loop of State::execute: run until the counter equals the
length of the instruction array.  The loop itself has no termination
measure, so it is embedded with explicit fuel. -/
def run (instructions : List Instruction) : Nat → State → Except String State
  | 0, _ => .error "fuel exhausted"
  | fuel + 1, st =>
    if st.line = instructions.length then .ok st
    else do
      run instructions fuel (← execStep instructions st)

/-- The setup of State::execute: push the Root frame and create the two
builtin Boolean variables true and false. -/
def init_state (stdin : List String) : Except String State := do
  let st : State := { line := 0, frames := [], stdout := "", stdin := stdin }
  let st := st.add_frame .Root
  let st ← st.make_variable_of_type "true" (.Boolean true)
  let st ← st.make_variable_of_type "false" (.Boolean false)
  .ok st

/-- State::execute in full: the setup followed by the fetch-execute loop. -/
def execute (instructions : List Instruction) (stdin : List String) (fuel : Nat) :
    Except String State := do
  run instructions fuel (← init_state stdin)

/-- The kind tag of a value, forgetting the payload: the three declared
kinds of the language. -/
inductive ValueKind
  | integer | boolean | str
  deriving DecidableEq, Repr

/-- The kind tag of a variable. -/
def Variable.kind (v : Variable) : ValueKind :=
  match v.variable_type with
  | .Integer _ => .integer
  | .Boolean _ => .boolean
  | .Str _ => .str

/-- The message of the fatal conflicting-string-types error of Variable::set. -/
def cast_error_message : String :=
  "attempt to cast non-numeric string with other type"

/-- The Root frame context as the engine setup leaves it: the two builtin
Boolean variables and no functions. -/
def init_root_context : FrameContext :=
  ⟨.Root, [("true", ⟨.Boolean true⟩), ("false", ⟨.Boolean false⟩)], []⟩

/-- The machine state right after the setup of State::execute. -/
def the_init_state (stdin : List String) : State :=
  ⟨0, [init_root_context], "", stdin⟩

theorem init_state_eq (stdin : List String) :
    init_state stdin = .ok (the_init_state stdin) := rfl

/-!  ## Shared lemmas about the scope chain and evaluation  -/

theorem lookupA_insertA_self {α : Type} (m : List (String × α)) (k : String) (v : α) :
    lookupA (insertA m k v) k = some v := by
  induction m with
  | nil => simp [insertA, lookupA]
  | cons p rest ih =>
    by_cases h : p.1 = k <;> simp [insertA, lookupA, h, ih]

theorem insertA_insertA {α : Type} (m : List (String × α)) (k : String) (v w : α) :
    insertA (insertA m k v) k w = insertA m k w := by
  induction m with
  | nil => simp [insertA]
  | cons p rest ih =>
    by_cases h : p.1 = k <;> simp [insertA, h, ih]

theorem containsA_insertA_self {α : Type} (m : List (String × α)) (k : String) (v : α) :
    containsA (insertA m k v) k = true := by
  simp [containsA, lookupA_insertA_self]

theorem lookup_variable_append (xs ys : List FrameContext) (n : String) :
    lookup_variable (xs ++ ys) n =
      match lookup_variable ys n with
      | some v => some v
      | none => lookup_variable xs n := by
  induction xs with
  | nil =>
    cases h : lookup_variable ys n <;> simp [lookup_variable, h]
  | cons fc rest ih =>
    show lookup_variable (fc :: (rest ++ ys)) n = _
    cases h : lookup_variable ys n <;>
      simp only [lookup_variable, ih, h] <;>
      cases h2 : lookup_variable rest n <;> simp [h2]

theorem lookup_variable_singleton (fc : FrameContext) (n : String) :
    lookup_variable [fc] n = lookupA fc.vars n := by
  cases h : lookupA fc.vars n <;> simp [lookup_variable, h]

/-- Pushing a fresh empty frame does not change variable resolution. -/
theorem lookup_variable_push (xs : List FrameContext) (f : Frame) (n : String) :
    lookup_variable (xs ++ [⟨f, [], []⟩]) n = lookup_variable xs n := by
  rw [lookup_variable_append]
  simp [lookup_variable_singleton, lookupA]

/-- Writing through the chain hits the innermost frame when it holds a
binding of the name. -/
theorem update_variable_append_last (xs : List FrameContext) (fc : FrameContext)
    (n : String) (v : Variable) (h : containsA fc.vars n = true) :
    update_variable (xs ++ [fc]) n v =
      xs ++ [{ fc with vars := insertA fc.vars n v }] := by
  induction xs with
  | nil => simp [update_variable, lookup_variable, h]
  | cons fc0 rest ih =>
    show update_variable (fc0 :: (rest ++ [fc])) n v = _
    have hsome : (lookup_variable (rest ++ [fc]) n).isSome = true := by
      rw [lookup_variable_append, lookup_variable_singleton]
      simp only [containsA] at h
      cases h2 : lookupA fc.vars n with
      | none => rw [h2] at h; simp at h
      | some w => simp
    simp [update_variable, hsome, ih]

theorem lookup_function_append (xs ys : List FrameContext) (n : String) :
    lookup_function (xs ++ ys) n =
      match lookup_function ys n with
      | some i => some i
      | none => lookup_function xs n := by
  induction xs with
  | nil =>
    cases h : lookup_function ys n <;> simp [lookup_function, h]
  | cons fc rest ih =>
    show lookup_function (fc :: (rest ++ ys)) n = _
    cases h : lookup_function ys n <;>
      simp only [lookup_function, ih, h] <;>
      cases h2 : lookup_function rest n <;> simp [h2]

/-- Monadic bind on Except collapses over an ok value. -/
theorem except_bind_ok {α β : Type} (a : α) (f : α → Except String β) :
    (Except.ok a >>= f : Except String β) = f a := rfl

/-- A list whose getLast? is known splits as dropLast plus that element. -/
theorem eq_dropLast_concat {α : Type} (l : List α) (a : α)
    (h : l.getLast? = some a) : l = l.dropLast ++ [a] := by
  cases l with
  | nil => simp at h
  | cons x xs =>
    have hne : (x :: xs) ≠ [] := by simp
    rw [List.getLast?_eq_getLast _ hne] at h
    simp only [Option.some.injEq] at h
    rw [← h]
    exact (List.dropLast_append_getLast hne).symm

/-- Resolution fails when no frame on the chain binds the name. -/
theorem lookup_variable_none (fs : List FrameContext) (n : String)
    (h : ∀ fc ∈ fs, containsA fc.vars n = false) :
    lookup_variable fs n = none := by
  induction fs with
  | nil => rfl
  | cons fc rest ih =>
    have h1 : containsA fc.vars n = false := h fc (by simp)
    have h2 : lookup_variable rest n = none :=
      ih (fun fc2 hm => h fc2 (by simp [hm]))
    have h1n : lookupA fc.vars n = none := by
      unfold containsA at h1
      cases hl : lookupA fc.vars n
      · rfl
      · rw [hl] at h1; simp at h1
    simp [lookup_variable, h2, h1n]

/-- A digit character is not an operator character. -/
theorem char_digit_not_op (c : Char) (h : char_is_numeric c = true) :
    is_char_operator c = false := by
  unfold is_char_operator operator_char_to_token_type
  split_ifs with h1 h2 h3 h4
  · subst h1; exact absurd h (by decide)
  · subst h2; exact absurd h (by decide)
  · subst h3; exact absurd h (by decide)
  · subst h4; exact absurd h (by decide)
  · rfl

/-- A purely numeric string contains no operator character. -/
theorem no_operator_of_numeric (s : String) (h : is_numeric s = true) :
    value_contains_operator s = false := by
  unfold is_numeric at h
  unfold value_contains_operator
  simp only [List.all_eq_true] at h
  simp only [List.any_eq_false]
  intro c hc
  simp [char_digit_not_op c (h c hc)]

/-- An integer literal evaluates to its parsed value in every state. -/
theorem evaluate_literal (st : State) (s : String) (a : Int)
    (h1 : is_numeric s = true) (h2 : parse_int s = some a) :
    st.evaluate_value s = .ok ⟨.Integer a⟩ := by
  unfold State.evaluate_value
  rw [no_operator_of_numeric s h1]
  simp [State.evaluate_inner_value, h1, h2]

/-- A plain name evaluates through the scope chain. -/
theorem evaluate_plain_name (st : State) (s : String)
    (h1 : value_contains_operator s = false) (h2 : is_numeric s = false)
    (h3 : ¬(s.length ≥ 2 ∧ s.toList.head? = some '\"' ∧
        s.toList.getLast? = some '\"')) :
    st.evaluate_value s = st.get_variable s := by
  unfold State.evaluate_value State.evaluate_inner_value
  rw [h1, h2]
  simp only [Bool.not_false, if_true, Bool.false_eq_true, if_false]
  rw [if_neg h3]

/-- Creating a variable with the kind of a value and then setting it to that
value yields exactly the value. -/
theorem set_own_kind (w : Variable) : Variable.set ⟨w.variable_type⟩ w = .ok w := by
  obtain ⟨t⟩ := w
  cases t with
  | Integer n => rfl
  | Str s => rfl
  | Boolean b => cases b <;> rfl

/-- Successful variable creation: the name is valid and the innermost frame
does not bind it yet, so it is inserted there with the given kind. -/
theorem make_var_ok (st : State) (name : String) (t : VariableType)
    (fc : FrameContext)
    (hlast : st.frames.getLast? = some fc)
    (hvalid : (is_numeric name || value_contains_operator name ||
        is_str_valid_type name) = false)
    (habs : containsA fc.vars name = false) :
    st.make_variable_of_type name t =
      .ok { st with
            frames := st.frames.dropLast ++
              [{ fc with vars := insertA fc.vars name ⟨t⟩ }] } := by
  unfold State.make_variable_of_type
  rw [hvalid, hlast]
  simp only [Bool.false_eq_true, if_false, habs, if_true, set_innermost]

/-- Successful assignment through the scope chain when the innermost frame
binds the name: the found value is set and written back in place. -/
theorem assign_innermost (st : State) (name : String) (v e r : Variable)
    (xs : List FrameContext) (fc : FrameContext)
    (hframes : st.frames = xs ++ [fc])
    (hlook : lookupA fc.vars name = some v)
    (hset : v.set e = .ok r) :
    st.assign_variable name e =
      .ok { st with frames := xs ++ [{ fc with vars := insertA fc.vars name r }] } := by
  have hcont : containsA fc.vars name = true := by simp [containsA, hlook]
  unfold State.assign_variable State.modify_variable
  rw [hframes, lookup_variable_append, lookup_variable_singleton, hlook]
  simp only [hset, Bind.bind, Except.bind]
  rw [update_variable_append_last _ _ _ _ hcont]

/-- The create-or-set tail fails with variable-already-exists when the
innermost frame already binds the target. -/
theorem make_then_assign_exists (st : State) (name : String) (t : VariableType)
    (fc : FrameContext)
    (hlast : st.frames.getLast? = some fc)
    (hvalid : (is_numeric name || value_contains_operator name ||
        is_str_valid_type name) = false)
    (hpres : containsA fc.vars name = true) :
    st.make_variable_of_type name t =
      .error ("variable already exists - line " ++ toString (st.line + 1)) := by
  unfold State.make_variable_of_type
  rw [hvalid, hlast]
  simp [hpres, State.fatal]

/-!  ## Claim C5  -/

/-- C5 counterexample.  The claim asserts that assigning a non-String source
into a non-numeric String destination is a fatal type error; in the source
the corresponding branch of detect_conflicting_string_types yields false in
both of its arms, so assigning Integer 5 into a String variable holding
"abc" succeeds and overwrites it with "5" through the integer bridge. -/
theorem c5_counterexample :
    Variable.set ⟨.Str "abc"⟩ ⟨.Integer 5⟩ = .ok ⟨.Str "5"⟩ := rfl

/-- C5 amended: Variable::set fails with the conflicting-string-types fatal
error exactly when the destination is not a String and the source is a
String holding non-numeric text; in particular the non-numeric string "abc"
assigned into an Integer variable is fatal, while the opposite direction (a
non-String source into a non-numeric String destination) is accepted and
goes through the integer bridge. -/
theorem c5_theorem :
    (∀ v other : Variable,
      v.set other = .error cast_error_message ↔
        v.is_string = false ∧
          ∃ s, other.variable_type = .Str s ∧ is_numeric s = false) ∧
    Variable.set ⟨.Integer 0⟩ ⟨.Str "abc"⟩ = .error cast_error_message ∧
    Variable.set ⟨.Str "abc"⟩ ⟨.Integer 5⟩ = .ok ⟨.Str "5"⟩ := by
  refine ⟨?_, rfl, rfl⟩
  rintro ⟨vt⟩ ⟨wt⟩
  cases vt <;> cases wt <;>
    simp only [Variable.set, Variable.is_string_and_so_is, Variable.is_string,
      Variable.detect_conflicting_string_types, Variable.as_integer,
      Variable.set_from_integer, string_to_int, cast_error_message,
      Bool.and_self, Bool.and_false, Bool.false_and, Bool.true_and,
      if_true, if_false, Bind.bind, Except.bind, pure, Except.pure] <;>
    simp_all
  all_goals
    rename_i s
    by_cases hn : is_numeric s <;> simp [hn]
    cases hp : parse_int s <;> simp [hp]

/-!  ## Claim C6  -/

/-- C6: every successful Variable::set leaves the kind tag of the
destination unchanged, and values cross kinds through the canonical integer
bridge: Integer 5 into a String variable yields the string "5", and the
string "7" into an Integer variable yields the integer 7. -/
theorem c6_theorem :
    (∀ v other result : Variable, v.set other = .ok result → result.kind = v.kind) ∧
    Variable.set ⟨.Str "x"⟩ ⟨.Integer 5⟩ = .ok ⟨.Str "5"⟩ ∧
    Variable.set ⟨.Integer 0⟩ ⟨.Str "7"⟩ = .ok ⟨.Integer 7⟩ := by
  refine ⟨?_, rfl, rfl⟩
  rintro ⟨vt⟩ ⟨wt⟩ ⟨rt⟩ h
  cases vt <;> cases wt <;>
    simp only [Variable.set, Variable.is_string_and_so_is, Variable.is_string,
      Variable.detect_conflicting_string_types, Variable.as_integer,
      Variable.set_from_integer, string_to_int,
      Bool.and_self, Bool.and_false, Bool.false_and, Bool.true_and,
      if_true, if_false, Bind.bind, Except.bind, pure, Except.pure] at h <;>
    first
      | (simp only [Except.ok.injEq] at h; rw [← h])
      | skip <;>
    simp_all [Variable.kind]
  all_goals repeat' split at h
  all_goals try simp only [Except.ok.injEq, Variable.mk.injEq, reduceCtorEq] at h
  all_goals try rw [← h]
  all_goals rfl

/-- C6 witness: the kind-preservation conjunct applied at a concrete
successful assignment. -/
theorem c6_witness :
    Variable.kind ⟨.Str "5"⟩ = Variable.kind ⟨.Str "x"⟩ :=
  c6_theorem.1 ⟨.Str "x"⟩ ⟨.Integer 5⟩ ⟨.Str "5"⟩ rfl

/-!  ## Claim C9  -/

/-- A two-line program whose conditional block is never closed: the true
branch pushes an IfStatement frame and the program then runs off the end. -/
def unclosed_block_program : List Instruction :=
  [.IfValueIsValue "0" "0" 1, .NoOp]

/-- C9 counterexample.  The claim asserts that terminating with anything but
the lone Root frame on the stack is detected and reported as a fatal
structural error; the while loop of State::execute has no such check, so the
unclosed-block program terminates silently in the ok branch with two frames
still on the stack. -/
theorem c9_counterexample :
    (execute unclosed_block_program [] 4).map
        (fun s => (s.line, s.frames.length, s.frames.map FrameContext.frame)) =
      .ok (2, 2, [.Root, .IfStatement]) := rfl

/-- C9 amended: when the program counter reaches the length of the
instruction array the fetch-execute loop returns the final state silently,
whatever the frame stack holds; no structural check is performed. -/
theorem c9_theorem (instructions : List Instruction) (st : State) (fuel : Nat)
    (h : st.line = instructions.length) :
    run instructions (fuel + 1) st = .ok st := by
  simp [run, h]

/-- C9 witness: the amended theorem applied to the silent unclosed-block
final state. -/
theorem c9_witness :
    run unclosed_block_program 1
        ⟨2, [init_root_context, ⟨.IfStatement, [], []⟩], "", []⟩ =
      .ok ⟨2, [init_root_context, ⟨.IfStatement, [], []⟩], "", []⟩ :=
  c9_theorem unclosed_block_program _ 0 rfl

/-!  ## Claim C7  -/

/-- C7: a ForRange instruction whose evaluated start is not below its
evaluated end pushes no frame and jumps nowhere: the whole state is kept and
the program counter advances by one, so the body lines will execute in the
enclosing scope context. -/
theorem c7_theorem (P : List Instruction) (st : State)
    (value start endv : String) (sv ev : Variable)
    (hinstr : P[st.line]? = some (.FromValueToValue value start endv))
    (hs : st.evaluate_value start = .ok sv)
    (he : st.evaluate_value endv = .ok ev)
    (hlt : sv.ltv ev = .ok false) :
    execStep P st = .ok { st with line := st.line + 1 } := by
  unfold execStep
  rw [hinstr]
  show (do
      let st2 ← exec_instruction st (.FromValueToValue value start endv)
      Except.ok { st2 with line := st2.line + 1 }) = _
  simp only [exec_instruction]
  rw [hs, he]
  simp only [Bind.bind, Except.bind, hlt, Bool.false_eq_true, if_false]

/-- C7 witness: a loop from 5 to 3 in the freshly initialised state falls
through to the next line with nothing pushed. -/
theorem c7_witness :
    execStep [.FromValueToValue "v" "5" "3"] (the_init_state []) =
      .ok { the_init_state [] with line := 1 } :=
  c7_theorem _ _ "v" "5" "3" ⟨.Integer 5⟩ ⟨.Integer 3⟩ rfl rfl rfl rfl

/-!  ## Claim C2  -/

/-- The three-line loop program: header, one body line, EndBlock. -/
def loop_noop_program : List Instruction :=
  [.FromValueToValue "v" "0" "2", .NoOp, .Done]

/-- C2 counterexample.  The claim asserts that after an EndBlock that
re-enters a ForLoop frame the header line itself (line 0 here) is executed
again; in the source the Done arm assigns start_line to the counter and the
fetch-execute loop then increments it unconditionally, so the next executed
line is the first body line (line 1), and the header with its start
expression is never re-executed. -/
theorem c2_counterexample :
    ((init_state [] >>= execSteps loop_noop_program 3).map State.line = .ok 1) ∧
      (1 : Nat) ≠ 0 := ⟨rfl, by decide⟩

/-- The EndBlock step on a ForLoop frame whose next value is still below
the evaluated end: increment, clear and reseed the frame, and land on the
line after the header. -/
theorem done_step_loop (P : List Instruction) (st : State) (loop_var : String)
    (start_line : Nat) (end_value : String) (fc : FrameContext)
    (current sum endvv : Variable)
    (hinstr : P[st.line]? = some .Done)
    (hlast : st.frames.getLast? = some fc)
    (hframe : fc.frame = .ForLoop loop_var start_line end_value)
    (hcur : lookupA fc.vars loop_var = some current)
    (hsum : current.add one = .ok sum)
    (hend : st.evaluate_value end_value = .ok endvv)
    (hge : sum.gev endvv = .ok false) :
    execStep P st =
      .ok { st with
            frames := st.frames.dropLast ++
              [⟨.ForLoop loop_var start_line end_value, [(loop_var, sum)], []⟩],
            line := start_line + 1 } := by
  have hsplit : st.frames = st.frames.dropLast ++ [fc] :=
    eq_dropLast_concat _ _ hlast
  have hcont : containsA fc.vars loop_var = true := by simp [containsA, hcur]
  have hlk : lookup_variable st.frames loop_var = some current := by
    conv_lhs => rw [hsplit]
    rw [lookup_variable_append, lookup_variable_singleton, hcur]
  unfold execStep
  rw [hinstr]
  show (do
      let st2 ← exec_instruction st .Done
      Except.ok { st2 with line := st2.line + 1 }) = _
  have hupd : update_variable st.frames loop_var sum =
      st.frames.dropLast ++ [{ fc with vars := insertA fc.vars loop_var sum }] := by
    conv_lhs => rw [hsplit]
    rw [update_variable_append_last _ _ _ _ hcont]
  have hlk2 : lookup_variable
      (st.frames.dropLast ++ [{ fc with vars := insertA fc.vars loop_var sum }])
      loop_var = some sum := by
    rw [lookup_variable_append, lookup_variable_singleton]
    simp [lookupA_insertA_self]
  simp only [exec_instruction, hlast, hframe]
  unfold State.get_variable State.modify_variable
  simp only [hlk, hsum, hend, hge, except_bind_ok, Bool.false_eq_true, if_false,
    hupd, hlk2, List.getLast?_concat]
  simp only [set_innermost, List.dropLast_concat, FrameContext.clear]
  conv_lhs => rw [hsplit]
  rw [List.dropLast_concat, hframe]
  rfl

/-- C2 amended: at an EndBlock closing a ForLoop frame with
loop_var + 1 still below the evaluated end expression, the loop variable is
incremented, the frame is cleared and reseeded with only the loop variable,
and the counter is set to start_line and then incremented by the loop, so
execution resumes at the line after the header: the header is not
re-executed, end_expr is re-evaluated at every EndBlock, and start_expr is
not re-evaluated. -/
theorem c2_theorem (P : List Instruction) (st : State) (loop_var : String)
    (start_line : Nat) (end_value : String) (fc : FrameContext)
    (current sum endvv : Variable)
    (hinstr : P[st.line]? = some .Done)
    (hlast : st.frames.getLast? = some fc)
    (hframe : fc.frame = .ForLoop loop_var start_line end_value)
    (hcur : lookupA fc.vars loop_var = some current)
    (hsum : current.add one = .ok sum)
    (hend : st.evaluate_value end_value = .ok endvv)
    (hge : sum.gev endvv = .ok false) :
    execStep P st =
      .ok { st with
            frames := st.frames.dropLast ++
              [⟨.ForLoop loop_var start_line end_value, [(loop_var, sum)], []⟩],
            line := start_line + 1 } :=
  done_step_loop P st loop_var start_line end_value fc current sum endvv
    hinstr hlast hframe hcur hsum hend hge

/-- C2 witness: the amended theorem applied to the state of the noop-body
loop just before its first EndBlock executes; the next line is 1, the first
body line, not the header line 0. -/
theorem c2_witness :
    execStep loop_noop_program
        ⟨2, [init_root_context,
             ⟨.ForLoop "v" 0 "2", [("v", ⟨.Integer 0⟩)], []⟩], "", []⟩ =
      .ok ⟨1, [init_root_context,
             ⟨.ForLoop "v" 0 "2", [("v", ⟨.Integer 1⟩)], []⟩], "", []⟩ :=
  c2_theorem loop_noop_program _ "v" 0 "2"
    ⟨.ForLoop "v" 0 "2", [("v", ⟨.Integer 0⟩)], []⟩
    ⟨.Integer 0⟩ ⟨.Integer 1⟩ ⟨.Integer 2⟩ rfl rfl rfl rfl rfl rfl rfl

/-!  ## Claim C1  -/

/-- A program whose function call requests a target variable that the caller
already declared before the call. -/
def return_into_existing_program : List Instruction :=
  [.FunctionDeclaration "f" 0 2 [],
   .Return "5",
   .Done,
   .IntDeclaration "x" "1",
   .FunctionCall "f" [] (some "x")]

/-- C1 counterexample.  The claim asserts the target variable is overwritten
when it already exists in the caller frame; in the source the Return arm
calls make_variable_of_type, which raises the fatal variable-already-exists
error instead, so the program declaring x before calling f() -> x aborts. -/
theorem c1_counterexample :
    execute return_into_existing_program [] 100 =
      .error "variable already exists - line 2" := rfl

/-- C1 amended: when a Return executes in a call that requested a target
variable, the return expression is evaluated, the frames above and including
the function frame are popped, and the target variable is created fresh in
the now-current caller frame and set to the evaluated value, with the
counter set to the caller line - provided the caller frame does not already
bind the target name; if it does, the engine raises the fatal
variable-already-exists error instead of overwriting.  A standard-library
call with a target behaves the same way in the current frame. -/
theorem c1_theorem :
    (∀ (st : State) (value target : String) (index caller_line : Nat)
        (evaluated : Variable) (fc : FrameContext),
      find_function_frame st.frames = some (index, caller_line, some target) →
      st.evaluate_value value = .ok evaluated →
      (st.frames.take index).getLast? = some fc →
      (is_numeric target || value_contains_operator target ||
          is_str_valid_type target) = false →
      containsA fc.vars target = false →
      exec_instruction st (.Return value) =
        .ok { st with
              frames := (st.frames.take index).dropLast ++
                [{ fc with vars := insertA fc.vars target evaluated }],
              line := caller_line }) ∧
    (∀ (st : State) (value target : String) (index caller_line : Nat)
        (evaluated : Variable) (fc : FrameContext),
      find_function_frame st.frames = some (index, caller_line, some target) →
      st.evaluate_value value = .ok evaluated →
      (st.frames.take index).getLast? = some fc →
      (is_numeric target || value_contains_operator target ||
          is_str_valid_type target) = false →
      containsA fc.vars target = true →
      exec_instruction st (.Return value) =
        .error ("variable already exists - line " ++ toString (st.line + 1))) ∧
    (∀ (st : State) (fn target : String) (values : List String)
        (args : List Variable) (ret : Variable) (out2 : String)
        (in2 : List String) (fc : FrameContext),
      lookup_function st.frames fn = none →
      values.mapM st.evaluate_value = .ok args →
      stdlib_function fn args st.stdout st.stdin = .ok (true, some ret, out2, in2) →
      st.frames.getLast? = some fc →
      (is_numeric target || value_contains_operator target ||
          is_str_valid_type target) = false →
      containsA fc.vars target = false →
      exec_instruction st (.FunctionCall fn values (some target)) =
        .ok { st with
              stdout := out2, stdin := in2,
              frames := st.frames.dropLast ++
                [{ fc with vars := insertA fc.vars target ret }] }) := by
  refine ⟨?_, ?_, ?_⟩
  · intro st value target index caller_line evaluated fc
      hfind heval hlast hvalid habs
    have hmk := make_var_ok { st with frames := st.frames.take index } target
      evaluated.variable_type fc hlast hvalid habs
    have hasg := assign_innermost
      { st with frames := (st.frames.take index).dropLast ++
          [{ fc with vars := insertA fc.vars target ⟨evaluated.variable_type⟩ }] }
      target ⟨evaluated.variable_type⟩ evaluated evaluated
      ((st.frames.take index).dropLast)
      { fc with vars := insertA fc.vars target ⟨evaluated.variable_type⟩ }
      rfl (lookupA_insertA_self _ _ _) (set_own_kind evaluated)
    simp only [exec_instruction, hfind, heval, except_bind_ok, hmk, hasg]
    rw [insertA_insertA]
  · intro st value target index caller_line evaluated fc
      hfind heval hlast hvalid hpres
    have hmk := make_then_assign_exists { st with frames := st.frames.take index }
      target evaluated.variable_type fc hlast hvalid hpres
    simp only [exec_instruction, hfind, heval, except_bind_ok, hmk]
    rfl
  · intro st fn target values args ret out2 in2 fc
      hfn hargs hstd hlast hvalid habs
    have hmk := make_var_ok ⟨st.line, st.frames, out2, in2⟩ target
      ret.variable_type fc hlast hvalid habs
    have hasg := assign_innermost
      ⟨st.line, st.frames.dropLast ++
          [{ fc with vars := insertA fc.vars target ⟨ret.variable_type⟩ }],
        out2, in2⟩
      target ⟨ret.variable_type⟩ ret ret
      (st.frames.dropLast)
      { fc with vars := insertA fc.vars target ⟨ret.variable_type⟩ }
      rfl (lookupA_insertA_self _ _ _) (set_own_kind ret)
    simp only [exec_instruction, hfn, hargs, except_bind_ok, hstd, if_true, hmk, hasg]
    rw [insertA_insertA]

/-- C1 witness: the Return conjunct applied at the concrete state of a call
f() -> x from line 3 whose caller frame does not yet bind x. -/
theorem c1_witness :
    exec_instruction ⟨1, [init_root_context, ⟨.Function 3 (some "x"), [], []⟩], "", []⟩
        (.Return "5") =
      .ok ⟨3, [⟨.Root,
        [("true", ⟨.Boolean true⟩), ("false", ⟨.Boolean false⟩),
         ("x", ⟨.Integer 5⟩)], []⟩], "", []⟩ :=
  c1_theorem.1 ⟨1, [init_root_context, ⟨.Function 3 (some "x"), [], []⟩], "", []⟩
    "5" "x" 1 3 ⟨.Integer 5⟩ init_root_context rfl rfl rfl rfl rfl

/-!  ## Claim C10  -/

/-- A program that shadows the builtin variable true with an Integer inside
a conditional frame and assigns the shadowed value into an outer variable. -/
def shadow_true_program : List Instruction :=
  [.IntDeclaration "y" "0",
   .IfValueIsValue "0" "0" 4,
   .IntDeclaration "true" "7",
   .Assignment "y" "true",
   .Done]

/-- C10 counterexample.  The claim asserts that in every program the
identifier true resolves through the scope chain to a Boolean value; after
the shadowing declaration inside the conditional frame, the identifier
resolves to Integer 7, not to a Boolean. -/
theorem c10_counterexample :
    ((init_state [] >>= execSteps shadow_true_program 3) >>=
        fun st => st.evaluate_value "true") = .ok ⟨.Integer 7⟩ ∧
      Variable.kind ⟨.Integer 7⟩ ≠ ValueKind.boolean := ⟨rfl, by decide⟩

/-- C10 amended: the setup inserts the Boolean variables true (holding true)
and false (holding false) into the Root frame before the first instruction;
the identifiers resolve through the scope chain to those Boolean values
whenever no inner frame binds the same name, but an inner frame may shadow
them with a non-Boolean binding; and creating a variable named true or
false while the Root frame is the innermost frame fails with the fatal
variable-already-exists error. -/
theorem c10_theorem :
    (∀ stdin, init_state stdin = .ok ⟨0, [init_root_context], "", stdin⟩) ∧
    (∀ t : VariableType,
      (init_state [] >>= fun st => st.make_variable_of_type "true" t) =
        .error "variable already exists - line 1") ∧
    (∀ t : VariableType,
      (init_state [] >>= fun st => st.make_variable_of_type "false" t) =
        .error "variable already exists - line 1") ∧
    (∀ st : State, st.frames.head? = some init_root_context →
      (∀ fc ∈ st.frames.tail, containsA fc.vars "true" = false) →
      st.get_variable "true" = .ok ⟨.Boolean true⟩) ∧
    (∀ st : State, st.frames.head? = some init_root_context →
      (∀ fc ∈ st.frames.tail, containsA fc.vars "false" = false) →
      st.get_variable "false" = .ok ⟨.Boolean false⟩) := by
  refine ⟨fun _ => rfl, fun _ => rfl, fun _ => rfl, ?_, ?_⟩ <;>
  · intro st hhead htail
    cases hfr : st.frames with
    | nil => rw [hfr] at hhead; simp at hhead
    | cons fc rest =>
      rw [hfr] at hhead htail
      simp only [List.head?_cons, Option.some.injEq] at hhead
      simp only [List.tail_cons] at htail
      have hrest := lookup_variable_none rest _ htail
      unfold State.get_variable
      rw [hfr, hhead]
      simp [lookup_variable, hrest, init_root_context, lookupA]

/-- C10 witness: resolution of the builtins in the freshly initialised
state, where no inner frame exists at all. -/
theorem c10_witness :
    (the_init_state []).get_variable "true" = .ok ⟨.Boolean true⟩ :=
  c10_theorem.2.2.2.1 (the_init_state []) rfl (by intro fc h; cases h)

/-!  ## Claim C4  -/

/-- Pushing a fresh empty frame changes no variable resolution. -/
theorem get_variable_push (st : State) (f : Frame) (n : String) :
    (st.add_frame f).get_variable n = st.get_variable n := by
  unfold State.get_variable State.add_frame
  rw [lookup_variable_push]

/-- Pushing a fresh empty frame changes no inner-value evaluation. -/
theorem evaluate_inner_push (st : State) (f : Frame) (v : String) :
    (st.add_frame f).evaluate_inner_value v = st.evaluate_inner_value v := by
  unfold State.evaluate_inner_value
  rw [get_variable_push]

/-- Pushing a fresh empty frame changes no value evaluation: in particular
the call-site argument expressions of a user-function call, although
evaluated after the new Function frame is pushed, still see exactly the
caller scope, because the new frame is empty until the bindings are made. -/
theorem split_part_eval_push (st : State) (f : Frame) :
    split_part_eval (st.add_frame f) = split_part_eval st := by
  funext p
  cases p with
  | inl w => simp [split_part_eval, evaluate_inner_push]
  | inr c => rfl

theorem evaluate_value_push (st : State) (f : Frame) (v : String) :
    (st.add_frame f).evaluate_value v = st.evaluate_value v := by
  unfold State.evaluate_value
  simp only [evaluate_inner_push, split_part_eval_push]

/-- The recursive factorial program:
fn fact : int n / if n is 0 / return 1 / done / int m = n-1 /
fact(m) -> r / return n*r / done / fact(5) -> result / print(result). -/
def fact_program : List Instruction :=
  [.FunctionDeclaration "fact" 0 7 [("n", .Integer 0)],
   .IfValueIsValue "n" "0" 3,
   .Return "1",
   .Done,
   .IntDeclaration "m" "n-1",
   .FunctionCall "fact" ["m"] (some "r"),
   .Return "n*r",
   .Done,
   .FunctionCall "fact" ["5"] (some "result"),
   .FunctionCall "print" ["result"] none]

/-- C4: for a call to a user-declared function, the call-site argument
expression is evaluated (against the caller scope, the pushed frame being
still empty) before the parameter binding is created, so a parameter named
like a caller-scope variable is bound to the evaluated caller value; and
the recursive fact program computes fact(5) = 120. -/
theorem c4_theorem :
    (∀ (st : State) (fn x vstr : String) (t : VariableType)
        (target : Option String) (first_line : Nat) (val bound : Variable),
      lookup_function st.frames fn = some (first_line, [(x, t)]) →
      st.evaluate_value vstr = .ok val →
      (is_numeric x || value_contains_operator x || is_str_valid_type x) = false →
      Variable.set ⟨t⟩ val = .ok bound →
      exec_instruction st (.FunctionCall fn [vstr] target) =
        .ok { st with
              frames := st.frames ++ [⟨.Function st.line target, [(x, bound)], []⟩],
              line := first_line }) ∧
    execute fact_program [] 200 =
      .ok ⟨10,
        [⟨.Root,
          [("true", ⟨.Boolean true⟩), ("false", ⟨.Boolean false⟩),
           ("result", ⟨.Integer 120⟩)],
          [("fact", (0, [("n", VariableType.Integer 0)]))]⟩],
        "120\n", []⟩ := by
  refine ⟨?_, rfl⟩
  intro st fn x vstr t target first_line val bound hfn heval hvalid hset
  have hpush := evaluate_value_push st (.Function st.line target) vstr
  have hmk := make_var_ok (st.add_frame (.Function st.line target)) x t
    ⟨.Function st.line target, [], []⟩
    (by unfold State.add_frame; simp) hvalid rfl
  have hasg := assign_innermost
    ⟨st.line, st.frames ++ [⟨.Function st.line target, [(x, ⟨t⟩)], []⟩],
      st.stdout, st.stdin⟩
    x ⟨t⟩ val bound st.frames ⟨.Function st.line target, [(x, ⟨t⟩)], []⟩
    rfl (by simp [lookupA]) hset
  simp only [exec_instruction, hfn]
  simp only [List.length_cons, List.length_nil, ne_eq, not_true_eq_false,
    if_false, ite_false]
  unfold pass_arguments
  rw [hpush, heval]
  simp only [except_bind_ok, hmk]
  simp only [State.add_frame, List.dropLast_concat]
  have hinsnil : insertA ([] : List (String × Variable)) x ⟨t⟩ = [(x, ⟨t⟩)] := rfl
  simp only [hinsnil]
  simp only [hasg, except_bind_ok]
  unfold pass_arguments
  simp only [except_bind_ok]
  have hins : insertA [(x, (⟨t⟩ : Variable))] x bound = [(x, bound)] := by
    simp [insertA]
  rw [hins]

/-- C4 witness: calling a one-parameter function whose parameter n shares
its name with a caller variable n holding 3 binds the parameter to the
caller value 3. -/
theorem c4_witness :
    exec_instruction
        ⟨5, [⟨.Root, [("n", ⟨.Integer 3⟩)],
          [("f", (0, [("n", VariableType.Integer 0)]))]⟩], "", []⟩
        (.FunctionCall "f" ["n"] none) =
      .ok ⟨0, [⟨.Root, [("n", ⟨.Integer 3⟩)],
          [("f", (0, [("n", VariableType.Integer 0)]))]⟩,
        ⟨.Function 5 none, [("n", ⟨.Integer 3⟩)], []⟩], "", []⟩ :=
  c4_theorem.1 _ "f" "n" "n" (.Integer 0) none 0 ⟨.Integer 3⟩ ⟨.Integer 3⟩
    rfl rfl rfl rfl

/-!  ## Claim C3  -/

theorem run_succ (P : List Instruction) (fuel : Nat) (st : State) :
    run P (fuel + 1) st =
      if st.line = P.length then .ok st
      else execStep P st >>= run P fuel := rfl

theorem run_succ_ne (P : List Instruction) (fuel : Nat) (st : State)
    (h : st.line ≠ P.length) :
    run P (fuel + 1) st = execStep P st >>= run P fuel := by
  rw [run_succ, if_neg h]

theorem run_succ_eq (P : List Instruction) (fuel : Nat) (st : State)
    (h : st.line = P.length) :
    run P (fuel + 1) st = .ok st := by
  rw [run_succ, if_pos h]

theorem string_append_empty (s : String) : s ++ "" = s := by
  cases s with
  | mk data => show String.mk (data ++ []) = String.mk data; simp

theorem string_append_assoc (a b c : String) : a ++ b ++ c = a ++ (b ++ c) := by
  cases a with
  | mk da =>
    cases b with
    | mk db =>
      cases c with
      | mk dc => show String.mk (da ++ db ++ dc) = String.mk (da ++ (db ++ dc)); simp

/-- The loop frame context of the printing loop at value k. -/
def loop_ctx (sb : String) (k : Int) : FrameContext :=
  ⟨.ForLoop "v" 0 sb, [("v", ⟨.Integer k⟩)], []⟩

/-- for v from sa to sb / print(v) / done. -/
def print_loop_program (sa sb : String) : List Instruction :=
  [.FromValueToValue "v" sa sb, .FunctionCall "print" ["v"] none, .Done]

/-- The text printed by n loop-body executions observing v = a, a+1, ... -/
def loop_output (a : Int) : Nat → String
  | 0 => ""
  | n + 1 => toString a ++ "\n" ++ loop_output (a + 1) n

/-- The print body step of the loop at value k. -/
theorem c3_print_step (sa sb : String) (k : Int) (o : String) :
    execStep (print_loop_program sa sb)
        ⟨1, [init_root_context, loop_ctx sb k], o, []⟩ =
      .ok ⟨2, [init_root_context, loop_ctx sb k], o ++ toString k ++ "\n", []⟩ := rfl

/-- The EndBlock step of the loop at value k when the loop is finished. -/
theorem c3_done_exit (sa sb : String) (k b : Int) (o : String)
    (hb1 : is_numeric sb = true) (hb2 : parse_int sb = some b)
    (hge : k + 1 ≥ b) :
    execStep (print_loop_program sa sb)
        ⟨2, [init_root_context, loop_ctx sb k], o, []⟩ =
      .ok ⟨3, [init_root_context], o, []⟩ := by
  have hend := evaluate_literal
    ⟨2, [init_root_context, ⟨.ForLoop "v" 0 sb, [("v", ⟨.Integer k⟩)], []⟩], o, []⟩
    sb b hb1 hb2
  have hgev : (⟨.Integer (k + 1)⟩ : Variable).gev ⟨.Integer b⟩ = .ok true := by
    show Except.ok (decide ((k : Int) + 1 ≥ b)) = _
    rw [decide_eq_true hge]
  have hlast2 : [init_root_context,
      (⟨.ForLoop "v" 0 sb, [("v", ⟨.Integer k⟩)], []⟩ : FrameContext)].getLast? =
      some ⟨.ForLoop "v" 0 sb, [("v", ⟨.Integer k⟩)], []⟩ := rfl
  have hget : State.get_variable
      ⟨2, [init_root_context, ⟨.ForLoop "v" 0 sb, [("v", ⟨.Integer k⟩)], []⟩], o, []⟩
      "v" = .ok ⟨.Integer k⟩ := rfl
  have hadd : (⟨.Integer k⟩ : Variable).add one = .ok ⟨.Integer (k + 1)⟩ := rfl
  show (do
      let st2 ← exec_instruction
        ⟨2, [init_root_context, ⟨.ForLoop "v" 0 sb, [("v", ⟨.Integer k⟩)], []⟩], o, []⟩
        .Done
      Except.ok { st2 with line := st2.line + 1 }) = _
  simp only [exec_instruction, hlast2, hget, hadd, hend, hgev, except_bind_ok, if_true]
  rfl

/-- The EndBlock step of the loop at value k when another iteration runs:
the loop variable is incremented, the frame reseeded, and the counter lands
on the first body line. -/
theorem c3_done_loop (sa sb : String) (k b : Int) (o : String)
    (hb1 : is_numeric sb = true) (hb2 : parse_int sb = some b)
    (hlt : k + 1 < b) :
    execStep (print_loop_program sa sb)
        ⟨2, [init_root_context, loop_ctx sb k], o, []⟩ =
      .ok ⟨1, [init_root_context, loop_ctx sb (k + 1)], o, []⟩ := by
  have hend := evaluate_literal ⟨2, [init_root_context, loop_ctx sb k], o, []⟩ sb b hb1 hb2
  have hgev : (⟨.Integer (k + 1)⟩ : Variable).gev ⟨.Integer b⟩ = .ok false := by
    show Except.ok (decide ((k : Int) + 1 ≥ b)) = _
    rw [decide_eq_false (by omega)]
  have hstep := done_step_loop (print_loop_program sa sb)
    ⟨2, [init_root_context, loop_ctx sb k], o, []⟩ "v" 0 sb (loop_ctx sb k)
    ⟨.Integer k⟩ ⟨.Integer (k + 1)⟩ ⟨.Integer b⟩
    rfl rfl rfl rfl rfl hend hgev
  exact hstep

/-- The loop invariant: from the body line with the loop variable at k and
n iterations left, the run finishes with the n observed values printed. -/
theorem c3_loop_lemma (sa sb : String) (b : Int)
    (hb1 : is_numeric sb = true) (hb2 : parse_int sb = some b) :
    ∀ (n : Nat) (k : Int) (o : String), k < b → n = (b - k).toNat →
    run (print_loop_program sa sb) (2 * n + 1)
        ⟨1, [init_root_context, loop_ctx sb k], o, []⟩ =
      .ok ⟨3, [init_root_context], o ++ loop_output k n, []⟩ := by
  intro n
  induction n with
  | zero =>
    intro k o hk hn
    exfalso
    omega
  | succ m ih =>
    intro k o hk hn
    have e1 : 2 * (m + 1) + 1 = (2 * m + 1 + 1) + 1 := by ring
    rw [e1, run_succ_ne _ _ _ (by simp [print_loop_program])]
    rw [c3_print_step, except_bind_ok,
      run_succ_ne _ _ _ (by simp [print_loop_program])]
    by_cases hc : k + 1 < b
    · rw [c3_done_loop sa sb k b _ hb1 hb2 hc, except_bind_ok]
      rw [ih (k + 1) (o ++ toString k ++ "\n") hc (by omega)]
      rw [loop_output]
      rw [string_append_assoc o (toString k) "\n"]
      rw [string_append_assoc o (toString k ++ "\n") (loop_output (k + 1) m)]
    · have hm : m = 0 := by omega
      subst hm
      rw [c3_done_exit sa sb k b _ hb1 hb2 (by omega), except_bind_ok,
        run_succ_eq _ _ _ (by simp [print_loop_program])]
      rw [loop_output, loop_output, string_append_empty]
      rw [string_append_assoc o (toString k) "\n"]

/-- The entry step: the header pushes the loop frame and seeds v with the
evaluated start value. -/
theorem c3_entry_step (sa sb : String) (a b : Int)
    (ha1 : is_numeric sa = true) (ha2 : parse_int sa = some a)
    (hb1 : is_numeric sb = true) (hb2 : parse_int sb = some b)
    (hab : a < b) :
    execStep (print_loop_program sa sb) ⟨0, [init_root_context], "", []⟩ =
      .ok ⟨1, [init_root_context, loop_ctx sb a], "", []⟩ := by
  have hsa := evaluate_literal ⟨0, [init_root_context], "", []⟩ sa a ha1 ha2
  have hsb := evaluate_literal ⟨0, [init_root_context], "", []⟩ sb b hb1 hb2
  have hsa2 := evaluate_literal
    ⟨0, [init_root_context, ⟨.ForLoop "v" 0 sb, [("v", ⟨.Integer 0⟩)], []⟩], "", []⟩
    sa a ha1 ha2
  have hlt : (⟨.Integer a⟩ : Variable).ltv ⟨.Integer b⟩ = .ok true := by
    show Except.ok (decide (a < b)) = _
    rw [decide_eq_true hab]
  have hmk := make_var_ok ⟨0, [init_root_context, ⟨.ForLoop "v" 0 sb, [], []⟩], "", []⟩
    "v" (.Integer 0) ⟨.ForLoop "v" 0 sb, [], []⟩ rfl rfl rfl
  have hasg := assign_innermost
    ⟨0, [init_root_context, ⟨.ForLoop "v" 0 sb, [("v", ⟨.Integer 0⟩)], []⟩], "", []⟩
    "v" ⟨.Integer 0⟩ ⟨.Integer a⟩ ⟨.Integer a⟩
    [init_root_context] ⟨.ForLoop "v" 0 sb, [("v", ⟨.Integer 0⟩)], []⟩
    rfl rfl rfl
  show (do
      let st2 ← exec_instruction ⟨0, [init_root_context], "", []⟩
        (.FromValueToValue "v" sa sb)
      Except.ok { st2 with line := st2.line + 1 }) = _
  simp only [exec_instruction, hsa, hsb, except_bind_ok, hlt, if_true]
  rw [if_neg (by decide)]
  simp only [State.add_frame, List.cons_append, List.nil_append]
  simp only [hmk]
  have hdrop : [init_root_context,
      (⟨.ForLoop "v" 0 sb, [], []⟩ : FrameContext)].dropLast =
      [init_root_context] := rfl
  have hinsnil : insertA ([] : List (String × Variable)) "v" ⟨.Integer 0⟩ =
      [("v", ⟨.Integer 0⟩)] := rfl
  simp only [hdrop, hinsnil, List.cons_append, List.nil_append]
  unfold State.set_variable
  simp only [hsa2, except_bind_ok, hasg]
  rfl

/-- C3: for integer literals sa and sb denoting a < b, the loop
for v from sa to sb with a print(v) body runs the body exactly
(b - a) times, printing v = a, a+1, ..., b-1, and terminates cleanly past
the EndBlock with only the Root frame left. -/
theorem c3_theorem (sa sb : String) (a b : Int)
    (ha1 : is_numeric sa = true) (ha2 : parse_int sa = some a)
    (hb1 : is_numeric sb = true) (hb2 : parse_int sb = some b)
    (hab : a < b) :
    execute (print_loop_program sa sb) [] (2 * (b - a).toNat + 2) =
      .ok ⟨3, [init_root_context], loop_output a (b - a).toNat, []⟩ := by
  unfold execute
  rw [init_state_eq]
  simp only [except_bind_ok]
  have e1 : 2 * (b - a).toNat + 2 = (2 * (b - a).toNat + 1) + 1 := by ring
  rw [e1, run_succ_ne _ _ _ (by simp [print_loop_program, the_init_state])]
  rw [show the_init_state [] = ⟨0, [init_root_context], "", []⟩ from rfl]
  rw [c3_entry_step sa sb a b ha1 ha2 hb1 hb2 hab, except_bind_ok]
  rw [c3_loop_lemma sa sb b hb1 hb2 (b - a).toNat a "" hab rfl]
  rfl

/-- C3 witness: for v from 2 to 5, the body runs three times printing
2, 3 and 4. -/
theorem c3_witness :
    execute (print_loop_program "2" "5") [] 8 =
      .ok ⟨3, [init_root_context], loop_output 2 3, []⟩ :=
  c3_theorem "2" "5" 2 5 rfl rfl rfl rfl (by decide)

/-!  ## Claim C8  -/

/-- The strict left-to-right reduction with no precedence, stated as a plain
fold: the accumulator starts as the first operand and every subsequent
(operator, operand) pair replaces it with the result of one reduction
step. -/
def fold_left_no_precedence (v0 : Variable) :
    List (TokenType × Variable) → Except String Variable
  | [] => .ok v0
  | (t, v) :: rest => do
    fold_left_no_precedence (← evaluate_operator_step v0 t v) rest

/-- The text of an expression with operands w0, w1, ... joined by the
operator characters c1, c2, ... -/
def mk_operator_text : List Char → List (Char × List Char) → List Char
  | w0, [] => w0
  | w0, (c, w) :: rest => w0 ++ c :: mk_operator_text w rest

/-- The same at the String level. -/
def mk_expression_string (w0 : String) (ps : List (Char × String)) : String :=
  ⟨mk_operator_text w0.toList (ps.map fun p => (p.1, p.2.toList))⟩

/-- The march flushes an operator-free tail as a single operand. -/
theorem split_go_opfree (w : List Char) : ∀ (pre : List Char), w ≠ [] →
    (∀ c ∈ w, is_char_operator c = false) →
    split_go pre w = [.inl (pre ++ w)] := by
  induction w with
  | nil => intro pre hne _; exact absurd rfl hne
  | cons c rest ih =>
    intro pre _ hop
    have hc : is_char_operator c = false := hop c (by simp)
    cases rest with
    | nil =>
      rw [show split_go pre [c] =
        (if is_char_operator c then [.inl (pre ++ [c]), .inr c]
         else [.inl (pre ++ [c])]) from rfl]
      rw [hc]
      simp
    | cons c2 cs =>
      rw [show split_go pre (c :: c2 :: cs) =
        (if is_char_operator c then .inl pre :: .inr c :: split_go [] (c2 :: cs)
         else split_go (pre ++ [c]) (c2 :: cs)) from rfl]
      rw [hc]
      simp only [Bool.false_eq_true, if_false]
      rw [ih (pre ++ [c]) (by simp) (fun x hx => hop x (by simp [hx]))]
      simp

/-- The march walks through an operator-free prefix, only growing the word. -/
theorem split_go_leading (u : List Char) : ∀ (pre : List Char) (c : Char)
    (tail : List Char), (∀ x ∈ u, is_char_operator x = false) →
    split_go pre (u ++ c :: tail) = split_go (pre ++ u) (c :: tail) := by
  induction u with
  | nil => intro pre c tail _; simp
  | cons x xs ih =>
    intro pre c tail hop
    have hx : is_char_operator x = false := hop x (by simp)
    cases xs with
    | nil =>
      rw [show ([x] ++ c :: tail) = x :: c :: tail from rfl]
      rw [show split_go pre (x :: c :: tail) =
        (if is_char_operator x then .inl pre :: .inr x :: split_go [] (c :: tail)
         else split_go (pre ++ [x]) (c :: tail)) from rfl]
      rw [hx]
      simp
    | cons x2 xs2 =>
      rw [show ((x :: x2 :: xs2) ++ c :: tail) = x :: ((x2 :: xs2) ++ c :: tail) from rfl]
      rw [show ((x2 :: xs2) ++ c :: tail) = x2 :: (xs2 ++ c :: tail) from rfl]
      rw [show split_go pre (x :: x2 :: (xs2 ++ c :: tail)) =
        (if is_char_operator x then
          .inl pre :: .inr x :: split_go [] (x2 :: (xs2 ++ c :: tail))
         else split_go (pre ++ [x]) (x2 :: (xs2 ++ c :: tail))) from rfl]
      rw [hx]
      simp only [Bool.false_eq_true, if_false]
      rw [show (x2 :: (xs2 ++ c :: tail)) = ((x2 :: xs2) ++ c :: tail) from rfl]
      rw [ih (pre ++ [x]) c tail (fun y hy => hop y (by simp [hy]))]
      simp

/-- A nonempty leading operand keeps the operator text nonempty. -/
theorem mk_operator_text_ne_nil (w : List Char) (l : List (Char × List Char))
    (hw : w ≠ []) : mk_operator_text w l ≠ [] := by
  cases l with
  | nil => simpa [mk_operator_text] using hw
  | cons p rest =>
    obtain ⟨c, u⟩ := p
    simp only [mk_operator_text]
    cases w with
    | nil => exact absurd rfl hw
    | cons a as => simp

/-- The march splits a well-formed operator text into the alternating
operand/operator sequence: the operands in order, separated by the operator
characters. -/
theorem split_go_mk (ps : List (Char × List Char)) : ∀ (w0 pre : List Char),
    w0 ≠ [] → (∀ c ∈ w0, is_char_operator c = false) →
    (∀ p ∈ ps, is_char_operator p.1 = true ∧ p.2 ≠ [] ∧
      (∀ c ∈ p.2, is_char_operator c = false)) →
    split_go pre (mk_operator_text w0 ps) =
      .inl (pre ++ w0) :: ps.bind (fun p => [.inr p.1, .inl p.2]) := by
  induction ps with
  | nil =>
    intro w0 pre h1 h2 _
    simp only [mk_operator_text, List.nil_bind]
    rw [split_go_opfree w0 pre h1 h2]
  | cons p rest ih =>
    intro w0 pre h1 h2 hwf
    obtain ⟨c, w⟩ := p
    have hc : is_char_operator c = true := (hwf (c, w) (by simp)).1
    have hwne : w ≠ [] := (hwf (c, w) (by simp)).2.1
    have hwop : ∀ x ∈ w, is_char_operator x = false := (hwf (c, w) (by simp)).2.2
    simp only [mk_operator_text]
    rw [split_go_leading w0 pre c _ h2]
    cases hmk : mk_operator_text w rest with
    | nil => exact absurd hmk (mk_operator_text_ne_nil w rest hwne)
    | cons d ds =>
      rw [show split_go (pre ++ w0) (c :: d :: ds) =
        (if is_char_operator c then
          .inl (pre ++ w0) :: .inr c :: split_go [] (d :: ds)
         else split_go ((pre ++ w0) ++ [c]) (d :: ds)) from rfl]
      rw [hc]
      simp only [if_true]
      rw [← hmk, ih w [] hwne hwop (fun q hq => hwf q (by simp [hq]))]
      simp

/-- The loop of evaluate_operator_expression on an alternating
operator/operand tail is exactly the left fold, whatever the initial
recorded operator. -/
theorem go_is_fold (items : List (TokenType × Variable)) : ∀ (v : Variable)
    (t0 : TokenType),
    evaluate_operator_go v true t0
        (items.bind fun i =>
          [OperatorExpression.Operator i.1, OperatorExpression.Variable i.2]) =
      fold_left_no_precedence v items := by
  induction items with
  | nil => intro v t0; rfl
  | cons i rest ih =>
    intro v t0
    obtain ⟨t, w⟩ := i
    show evaluate_operator_go v true t0
        (OperatorExpression.Operator t :: OperatorExpression.Variable w ::
          (rest.bind fun i =>
            [OperatorExpression.Operator i.1, OperatorExpression.Variable i.2])) =
      fold_left_no_precedence v ((t, w) :: rest)
    show (do
        let acc ← evaluate_operator_step v t w
        evaluate_operator_go acc true t
          (rest.bind fun i =>
            [OperatorExpression.Operator i.1, OperatorExpression.Variable i.2])) =
      (do
        let acc ← evaluate_operator_step v t w
        fold_left_no_precedence acc rest)
    cases hs : evaluate_operator_step v t w with
    | error e => rfl
    | ok acc =>
      simp only [except_bind_ok]
      exact ih acc t

/-- Evaluating the flushed parts of a well-formed alternating tail is the
same as evaluating every operand and re-expanding. -/
theorem mapM_parts (st : State) (ps : List (Char × String)) :
    (ps.bind fun p => [Sum.inr p.1, Sum.inl p.2.toList]).mapM
        (split_part_eval st) =
      (ps.mapM (fun (p : Char × String) => do
        let v ← st.evaluate_inner_value p.2
        (pure (operator_char_to_token_type p.1, v) :
          Except String (TokenType × Variable)))).map
        (fun (items : List (TokenType × Variable)) => items.bind fun i =>
          [OperatorExpression.Operator i.1, OperatorExpression.Variable i.2]) := by
  induction ps with
  | nil => rfl
  | cons p rest ih =>
    obtain ⟨c, w⟩ := p
    show (Sum.inr c :: Sum.inl w.toList ::
        (rest.bind fun p => [Sum.inr p.1, Sum.inl p.2.toList])).mapM
          (split_part_eval st) = _
    rw [List.mapM_cons, List.mapM_cons]
    rw [show split_part_eval st (Sum.inr c) =
      Except.ok (OperatorExpression.Operator (operator_char_to_token_type c)) from rfl]
    rw [show split_part_eval st (Sum.inl w.toList) =
      (do
        let v ← st.evaluate_inner_value w
        Except.ok (OperatorExpression.Variable v)) from rfl]
    rw [ih]
    simp only [List.mapM_cons]
    cases hv : st.evaluate_inner_value w with
    | error e => rfl
    | ok v =>
      simp only [except_bind_ok]
      cases hm : rest.mapM (fun (p : Char × String) => do
          let v ← st.evaluate_inner_value p.2
          (pure (operator_char_to_token_type p.1, v) :
            Except String (TokenType × Variable))) with
      | error e2 => rfl
      | ok items => rfl

/-- C8: a textual expression built of operands joined by operator
characters is evaluated by splitting it into the alternating
operand/operator sequence (each operand evaluated as an inner value, left
to right) and then reducing strictly left to right with no precedence: the
first operand seeds the accumulator and each (operator, operand) pair
replaces it, multiply and subtract computing on the integer coercions of
both operands and the comparisons replacing the accumulator with a Boolean.
The splitting itself, the reduction steps, and the left-associated result
(2-3)*4 = -4 for the text 2-3*4 are stated together. -/
theorem c8_theorem :
    (∀ (st : State) (w0 : String) (ps : List (Char × String)),
      w0.toList ≠ [] →
      (∀ c ∈ w0.toList, is_char_operator c = false) →
      (∀ p ∈ ps, is_char_operator p.1 = true ∧ p.2.toList ≠ [] ∧
        (∀ c ∈ p.2.toList, is_char_operator c = false)) →
      st.evaluate_value (mk_expression_string w0 ps) =
        (do
          let v0 ← st.evaluate_inner_value w0
          let items ← ps.mapM (fun (p : Char × String) => do
            let v ← st.evaluate_inner_value p.2
            (pure (operator_char_to_token_type p.1, v) :
              Except String (TokenType × Variable)))
          fold_left_no_precedence v0 items)) ∧
    (∀ (ps : List (Char × String)) (w0 : String),
      w0.toList ≠ [] →
      (∀ c ∈ w0.toList, is_char_operator c = false) →
      (∀ p ∈ ps, is_char_operator p.1 = true ∧ p.2.toList ≠ [] ∧
        (∀ c ∈ p.2.toList, is_char_operator c = false)) →
      split_expression (mk_expression_string w0 ps) =
        .inl w0.toList :: ps.bind (fun p => [.inr p.1, .inl p.2.toList])) ∧
    (∀ (acc opr : Variable) (x y : Int),
      acc.as_integer = .ok x → opr.as_integer = .ok y →
      evaluate_operator_step acc .Multiply opr = .ok (acc.set_from_integer (x * y)) ∧
      evaluate_operator_step acc .Minus opr = .ok (acc.set_from_integer (x - y)) ∧
      evaluate_operator_step acc .LessThan opr = .ok ⟨.Boolean (decide (x < y))⟩ ∧
      evaluate_operator_step acc .GreaterThan opr = .ok ⟨.Boolean (decide (x > y))⟩) ∧
    (⟨0, [], "", []⟩ : State).evaluate_value "2-3*4" = .ok ⟨.Integer (-4)⟩ := by
  have hsplit : ∀ (ps : List (Char × String)) (w0 : String),
      w0.toList ≠ [] →
      (∀ c ∈ w0.toList, is_char_operator c = false) →
      (∀ p ∈ ps, is_char_operator p.1 = true ∧ p.2.toList ≠ [] ∧
        (∀ c ∈ p.2.toList, is_char_operator c = false)) →
      split_expression (mk_expression_string w0 ps) =
        .inl w0.toList :: ps.bind (fun p => [.inr p.1, .inl p.2.toList]) := by
    intro ps w0 h1 h2 hwf
    unfold split_expression mk_expression_string
    rw [show (⟨mk_operator_text w0.toList
        (ps.map fun p => (p.1, p.2.toList))⟩ : String).toList =
      mk_operator_text w0.toList (ps.map fun p => (p.1, p.2.toList)) from rfl]
    rw [split_go_mk (ps.map fun p => (p.1, p.2.toList)) w0.toList [] h1 h2
      (by
        intro q hq
        simp only [List.mem_map] at hq
        obtain ⟨p, hp, hpq⟩ := hq
        obtain ⟨hc, hne, hop⟩ := hwf p hp
        rw [← hpq]
        exact ⟨hc, hne, hop⟩)]
    simp [List.bind_map]
  refine ⟨?_, hsplit, ?_, ?_⟩
  · intro st w0 ps h1 h2 hwf
    cases ps with
    | nil =>
      have hmk : mk_expression_string w0 [] = w0 := rfl
      rw [hmk]
      have hop : value_contains_operator w0 = false := by
        unfold value_contains_operator
        simp only [List.any_eq_false]
        intro c hc
        simp [h2 c hc]
      unfold State.evaluate_value
      rw [hop]
      simp only [Bool.not_false, if_true]
      cases hv : st.evaluate_inner_value w0 with
      | error e => rfl
      | ok v => rfl
    | cons p rest =>
      have hcmem : p.1 ∈ (mk_expression_string w0 (p :: rest)).toList := by
        unfold mk_expression_string
        rw [show (⟨mk_operator_text w0.toList
            ((p :: rest).map fun q => (q.1, q.2.toList))⟩ : String).toList =
          mk_operator_text w0.toList
            ((p :: rest).map fun q => (q.1, q.2.toList)) from rfl]
        simp [mk_operator_text]
      have hcop : value_contains_operator (mk_expression_string w0 (p :: rest)) = true := by
        unfold value_contains_operator
        simp only [List.any_eq_true]
        exact ⟨p.1, hcmem, (hwf p (by simp)).1⟩
      unfold State.evaluate_value
      rw [hcop]
      simp only [Bool.not_true, Bool.false_eq_true, if_false]
      rw [hsplit (p :: rest) w0 h1 h2 hwf]
      rw [List.mapM_cons]
      have hinl : split_part_eval st (Sum.inl w0.toList) =
          (do
            let v ← st.evaluate_inner_value w0
            Except.ok (OperatorExpression.Variable v)) := rfl
      rw [hinl, mapM_parts st (p :: rest)]
      cases hv : st.evaluate_inner_value w0 with
      | error e => rfl
      | ok v0 =>
        cases hm : (p :: rest).mapM (fun (q : Char × String) => do
            let v ← st.evaluate_inner_value q.2
            (pure (operator_char_to_token_type q.1, v) :
              Except String (TokenType × Variable))) with
        | error e => rfl
        | ok items => exact go_is_fold items v0 TokenType.Multiply
  · intro acc opr x y hx hy
    refine ⟨?_, ?_, ?_, ?_⟩ <;>
      simp [evaluate_operator_step, Variable.mul_assign, Variable.sub_assign,
        Variable.ltv, Variable.gtv, hx, hy, except_bind_ok]
  · rfl

/-- C8 witness: the structural conjunct applied to the concrete text 2-3*4
in the empty state; the fold is strictly left to right, so the result is
(2-3)*4 = -4, not 2-(3*4). -/
theorem c8_witness :
    (⟨0, [], "", []⟩ : State).evaluate_value
        (mk_expression_string "2" [('-', "3"), ('*', "4")]) =
      (do
        let v0 ← (⟨0, [], "", []⟩ : State).evaluate_inner_value "2"
        let items ← [('-', "3"), ('*', "4")].mapM (fun (p : Char × String) => do
          let v ← (⟨0, [], "", []⟩ : State).evaluate_inner_value p.2
          (pure (operator_char_to_token_type p.1, v) :
            Except String (TokenType × Variable)))
        fold_left_no_precedence v0 items) :=
  c8_theorem.1 ⟨0, [], "", []⟩ "2" [('-', "3"), ('*', "4")]
    (by decide) (by decide) (by decide)

end Lukascript
